import Mathlib

/-!
Verification of the `SimulationService` in-process simulation tracker of the
MediaRecommender backend (`app/services/simulation.py`), together with the thin
request layer (`app/api/simulation.py`) and request schema (`app/schemas`).

The Python service is embedded shallowly:
* the SQLAlchemy-backed catalog tables (books, movies, games) and the
  interaction ledger become association lists inside a `SimulationService`
  state record, and `db.commit` style in-place mutation becomes explicit
  state passing;
* `datetime.utcnow()` is an injected rational timestamp `now` (seconds);
* `random.randint`, `random.random() < 0.3` and `random.choice` are injected
  oracles: a natural number mapped into the requested range for `randint`,
  a boolean `gate` for the 30% event draw, and an index for `choice`;
* Python exceptions become an `Except SimError` result paired with the state
  reached at the point the exception escapes (side effects already committed
  to the database or the session map persist across a raised exception, so an
  erroring operation still returns a mutated state);
* Python floats are modelled as rationals, `int(x)` as truncation toward
  zero, `round(x, 2)` as round-half-even at two decimals, `//` as floor
  division.
-/

/-- Lookup of the first binding of a key in an association list,
mirroring Python dict access on the key sets used by the service. -/
def alistLookup {α β : Type} [DecidableEq α] : List (α × β) → α → Option β
  | [], _ => none
  | (k, v) :: rest, key => if k = key then some v else alistLookup rest key

/-- Replace the first binding of a key, or append a fresh binding, mirroring
`d[key] = value` on a Python dict (insertion order preserved). -/
def alistSet {α β : Type} [DecidableEq α] : List (α × β) → α → β → List (α × β)
  | [], key, val => [(key, val)]
  | (k, v) :: rest, key, val =>
    if k = key then (key, val) :: rest else (k, v) :: alistSet rest key val

/-- Remove the first binding of a key, mirroring `del d[key]`. -/
def alistRemove {α β : Type} [DecidableEq α] : List (α × β) → α → List (α × β)
  | [], _ => []
  | (k, v) :: rest, key => if k = key then rest else (k, v) :: alistRemove rest key

/-- Python `int(x)` on a float: truncation toward zero. -/
def pyInt (q : ℚ) : ℤ := if q < 0 then -⌊-q⌋ else ⌊q⌋

/-- Python `round(x)` to the nearest integer, ties to even. -/
def roundHalfEven (q : ℚ) : ℤ :=
  if q - ⌊q⌋ < 1/2 then ⌊q⌋
  else if 1/2 < q - ⌊q⌋ then ⌊q⌋ + 1
  else if ⌊q⌋ % 2 = 0 then ⌊q⌋ else ⌊q⌋ + 1

/-- Python `round(x, 2)`: round to two decimal places, ties to even. -/
def pyRound2 (q : ℚ) : ℚ := (roundHalfEven (q * 100) : ℚ) / 100

/-- Python `random.randint(lo, hi)` with an injected entropy value `r`:
every value of `r` lands in `[lo, hi]` and every point of `[lo, hi]` is hit,
so a uniform `r` induces the uniform draw the library documents. -/
def randint (lo hi : ℕ) (r : ℕ) : ℕ := lo + r % (hi - lo + 1)

/-- Python `random.choice(l)` with an injected index oracle. -/
def pyChoice (l : List String) (i : ℕ) : String := l.getD (i % l.length) ""

/-- Python `list(set(a + b))`: union with duplicates removed. -/
def pySetUnion (a b : List String) : List String := (a ++ b).dedup

/-- A single-quote character, used in the service's message strings. -/
def squote : String := String.singleton (Char.ofNat 39)

/-- One catalog row, restricted to the fields the tracker reads
(`title`, `popularity_score`). -/
structure Content where
  title : String
  popularity_score : ℚ
deriving DecidableEq

/-- The `UserInteraction` ledger row, as created and mutated by the tracker. -/
structure UserInteraction where
  user_id : ℤ
  content_type : String
  content_id : ℤ
  interaction_type : String
  rating : Option ℤ
  progress_percent : ℤ
  start_date : ℚ
  completion_date : Option ℚ
  simulation_duration : Option ℤ
  tags_extracted : List String
deriving DecidableEq

/-- One entry of `active_simulations`: the in-memory live session. -/
structure Sim where
  interaction_id : ℕ
  user_id : ℤ
  content_type : String
  content_id : ℤ
  content_title : String
  start_time : ℚ
  total_time : ℕ
  events : List String
deriving DecidableEq

/-- The whole observable state of a `SimulationService` instance: the three
catalog tables and the interaction table reachable through `self.db`, the
autoincrement counter for `interaction_id`, and the in-memory
`active_simulations` dict. -/
structure SimulationService where
  books : List (ℤ × Content)
  movies : List (ℤ × Content)
  games : List (ℤ × Content)
  interactions : List (ℕ × UserInteraction)
  next_interaction_id : ℕ
  active_simulations : List (String × Sim)
deriving DecidableEq

/-- Exceptions the service can raise. `valueError` carries the message of a
Python `ValueError` (the request layer maps these to HTTP 404/400);
`keyError` models a `KeyError` on a dict subscript; `unboundLocalError`
models reading a local variable that was never assigned. -/
inductive SimError where
  | valueError : String → SimError
  | keyError : SimError
  | unboundLocalError : SimError
deriving DecidableEq

/-- The `SIMULATION_TIMES` table: `(min, max)` seconds per content type. -/
def SIMULATION_TIMES (content_type : String) : Option (ℕ × ℕ) :=
  if content_type = "book" then some (30, 180)
  else if content_type = "movie" then some (20, 60)
  else if content_type = "game" then some (45, 300)
  else none

/-- The `SIMULATION_EVENTS` table of flavor-text events per content type. -/
def SIMULATION_EVENTS (content_type : String) : List String :=
  if content_type = "book" then
    ["Вы погружаетесь в увлекательный сюжет...",
     "Неожиданный поворот событий!",
     "Главный герой принимает важное решение...",
     "Вы не можете оторваться от чтения!",
     "Эмоциональная сцена заставляет задуматься..."]
  else if content_type = "movie" then
    ["Захватывающая сцена экшена!",
     "Неожиданный сюжетный твист!",
     "Эмоциональный диалог между персонажами...",
     "Впечатляющие визуальные эффекты!",
     "Напряженный момент..."]
  else if content_type = "game" then
    ["Вы исследуете новую локацию!",
     "Эпическая битва с боссом!",
     "Найден редкий предмет!",
     "Разблокировано достижение!",
     "Сложная головоломка решена!",
     "Новый уровень пройден!"]
  else []

/-- `get_content`: dispatch on the content type to the matching table;
unknown types return `None`. -/
def get_content (svc : SimulationService) (content_type : String)
    (content_id : ℤ) : Option Content :=
  if content_type = "book" then alistLookup svc.books content_id
  else if content_type = "movie" then alistLookup svc.movies content_id
  else if content_type = "game" then alistLookup svc.games content_id
  else none

/-- Write a catalog row back to the table it came from (the commit at the end
of `update_content_popularity`). -/
def set_content (svc : SimulationService) (content_type : String)
    (content_id : ℤ) (c : Content) : SimulationService :=
  if content_type = "book" then
    { svc with books := alistSet svc.books content_id c }
  else if content_type = "movie" then
    { svc with movies := alistSet svc.movies content_id c }
  else if content_type = "game" then
    { svc with games := alistSet svc.games content_id c }
  else svc

/-- `get_action_verb`. -/
def get_action_verb (content_type : String) : String :=
  if content_type = "book" then "чтение"
  else if content_type = "movie" then "просмотр"
  else if content_type = "game" then "игру"
  else "взаимодействие"

/-- `update_content_popularity`: re-read the catalog row and blend the new
rating into its popularity score, `new = old * 0.9 + rating * 0.1`, rounded
to two decimals; a missing row is silently ignored. -/
def update_content_popularity (svc : SimulationService) (content_type : String)
    (content_id : ℤ) (rating : ℤ) : SimulationService :=
  match get_content svc content_type content_id with
  | none => svc
  | some content =>
    let new_score : ℚ := content.popularity_score * (9/10) + (rating : ℚ) * (1/10)
    set_content svc content_type content_id
      { content with popularity_score := pyRound2 new_score }

/-- `calculate_experience`: `rating * 10 + min(duration // 30, 50)`. -/
def calculate_experience (rating : ℤ) (duration : ℤ) : ℤ :=
  rating * 10 + min (Int.fdiv duration 30) 50

/-- The session key `f"{user_id}_{content_type}_{content_id}"`. -/
def simulation_key (user_id : ℤ) (content_type : String) (content_id : ℤ) : String :=
  toString user_id ++ "_" ++ content_type ++ "_" ++ toString content_id

/-- Return payload of `start_simulation`. -/
structure StartResult where
  simulation_id : String
  interaction_id : ℕ
  estimated_time : ℕ
  content_title : String
  message : String
deriving DecidableEq

/-- Return payload of `get_simulation_progress`. -/
structure ProgressResult where
  progress : ℤ
  completed : Bool
  event : Option String
  content_title : String
  elapsed_time : ℤ
deriving DecidableEq

/-- Return payload of `complete_simulation`. -/
structure CompleteResult where
  message : String
  rating : ℤ
  duration : ℤ
  experience_gained : ℤ
deriving DecidableEq

/-- Return payload of `cancel_simulation`. -/
structure CancelResult where
  message : String
deriving DecidableEq

/-- `start_simulation(user_id, content_type, content_id)`: check the catalog,
insert a `started` ledger row, draw the planned duration with
`random.randint` from `SIMULATION_TIMES[content_type]`, and store the session
under the composite key (overwriting any previous session there). `now` is
the injected clock, `rand` the injected entropy for `randint`. -/
def start_simulation (svc : SimulationService) (user_id : ℤ)
    (content_type : String) (content_id : ℤ) (now : ℚ) (rand : ℕ) :
    SimulationService × Except SimError StartResult :=
  match get_content svc content_type content_id with
  | none =>
    (svc, Except.error (SimError.valueError
      ("Content not found: " ++ content_type ++ " " ++ toString content_id)))
  | some content =>
    let interaction : UserInteraction :=
      { user_id := user_id, content_type := content_type,
        content_id := content_id, interaction_type := "started",
        rating := none, progress_percent := 0, start_date := now,
        completion_date := none, simulation_duration := none,
        tags_extracted := [] }
    let iid := svc.next_interaction_id
    let svc1 := { svc with
      interactions := alistSet svc.interactions iid interaction,
      next_interaction_id := iid + 1 }
    match SIMULATION_TIMES content_type with
    | none => (svc1, Except.error SimError.keyError)
    | some range =>
      let simulation_time := randint range.1 range.2 rand
      let key := simulation_key user_id content_type content_id
      let sim : Sim :=
        { interaction_id := iid, user_id := user_id,
          content_type := content_type, content_id := content_id,
          content_title := content.title, start_time := now,
          total_time := simulation_time, events := [] }
      let svc2 := { svc1 with
        active_simulations := alistSet svc1.active_simulations key sim }
      (svc2, Except.ok
        { simulation_id := key, interaction_id := iid,
          estimated_time := simulation_time, content_title := content.title,
          message := "Начинаем " ++ get_action_verb content_type ++ " " ++
            squote ++ content.title ++ squote ++ "!" })

/-- `get_simulation_progress(simulation_id)`: recompute the clamped progress
percentage from wall-clock elapsed time, persist it onto the ledger row when
that row exists, and possibly emit one flavor-text event (progress above 20,
fewer than 3 events so far, and the 30% random gate passing). `gate` is the
injected outcome of `random.random() < 0.3` and `choiceIdx` the injected
index for `random.choice`. -/
def get_simulation_progress (svc : SimulationService) (simulation_id : String)
    (now : ℚ) (gate : Bool) (choiceIdx : ℕ) :
    SimulationService × Except SimError ProgressResult :=
  match alistLookup svc.active_simulations simulation_id with
  | none => (svc, Except.error (SimError.valueError "Simulation not found"))
  | some sim =>
    let elapsed : ℚ := now - sim.start_time
    let progress : ℤ := min 100 (pyInt (elapsed / (sim.total_time : ℚ) * 100))
    let svc1 :=
      match alistLookup svc.interactions sim.interaction_id with
      | some interaction =>
        let interaction2 := { interaction with progress_percent := progress }
        { svc with interactions :=
            alistSet svc.interactions sim.interaction_id interaction2 }
      | none => svc
    if 20 < progress ∧ sim.events.length < 3 ∧ gate = true then
      let ev := pyChoice (SIMULATION_EVENTS sim.content_type) choiceIdx
      let sim2 := { sim with events := sim.events ++ [ev] }
      let svc2 := { svc1 with
        active_simulations := alistSet svc1.active_simulations simulation_id sim2 }
      (svc2, Except.ok
        { progress := progress, completed := decide (100 ≤ progress),
          event := some ev, content_title := sim.content_title,
          elapsed_time := pyInt elapsed })
    else
      (svc1, Except.ok
        { progress := progress, completed := decide (100 ≤ progress),
          event := none, content_title := sim.content_title,
          elapsed_time := pyInt elapsed })

/-- `complete_simulation(simulation_id, rating, personal_tags)`: when the
ledger row exists, finalize it (`completed`, rating, 100%, completion date,
actual duration, merged tags), evict the session, update popularity, and
return the report. When the ledger row is missing, the code still evicts the
session and updates popularity, then crashes building the return value: the
local `actual_duration` was only assigned on the row-present branch, so an
`UnboundLocalError` escapes while the eviction and the popularity write have
already been committed. -/
def complete_simulation (svc : SimulationService) (simulation_id : String)
    (rating : ℤ) (personal_tags : List String) (now : ℚ) :
    SimulationService × Except SimError CompleteResult :=
  match alistLookup svc.active_simulations simulation_id with
  | none => (svc, Except.error (SimError.valueError "Simulation not found"))
  | some sim =>
    match alistLookup svc.interactions sim.interaction_id with
    | some interaction =>
      let actual_duration : ℤ := pyInt (now - sim.start_time)
      let interaction2 := { interaction with
        interaction_type := "completed", rating := some rating,
        progress_percent := 100, completion_date := some now,
        simulation_duration := some actual_duration,
        tags_extracted :=
          if personal_tags.isEmpty then interaction.tags_extracted
          else pySetUnion interaction.tags_extracted personal_tags }
      let svc1 := { svc with
        interactions := alistSet svc.interactions sim.interaction_id interaction2 }
      let svc2 := { svc1 with
        active_simulations := alistRemove svc1.active_simulations simulation_id }
      let svc3 := update_content_popularity svc2 sim.content_type sim.content_id rating
      (svc3, Except.ok
        { message := "Вы завершили " ++ get_action_verb sim.content_type ++
            " " ++ squote ++ sim.content_title ++ squote ++ "!",
          rating := rating, duration := actual_duration,
          experience_gained := calculate_experience rating actual_duration })
    | none =>
      let svc2 := { svc with
        active_simulations := alistRemove svc.active_simulations simulation_id }
      let svc3 := update_content_popularity svc2 sim.content_type sim.content_id rating
      (svc3, Except.error SimError.unboundLocalError)

/-- `cancel_simulation(simulation_id)`: mark the ledger row `dropped` with a
completion date (when the row exists), evict the session, and report. -/
def cancel_simulation (svc : SimulationService) (simulation_id : String)
    (now : ℚ) : SimulationService × Except SimError CancelResult :=
  match alistLookup svc.active_simulations simulation_id with
  | none => (svc, Except.error (SimError.valueError "Simulation not found"))
  | some sim =>
    let svc1 :=
      match alistLookup svc.interactions sim.interaction_id with
      | some interaction =>
        let interaction2 :=
          { interaction with
            interaction_type := "dropped", completion_date := some now }
        { svc with interactions :=
            alistSet svc.interactions sim.interaction_id interaction2 }
      | none => svc
    let svc2 := { svc1 with
      active_simulations := alistRemove svc1.active_simulations simulation_id }
    (svc2, Except.ok
      { message := "Вы прекратили " ++ get_action_verb sim.content_type ++
          " " ++ squote ++ sim.content_title ++ squote })

/-- The `SimulationComplete` request schema (`app/schemas`): a pydantic model
with fields `rating: int` and `personal_tags: List[str] = []`. -/
structure SimulationCompleteData where
  rating : ℤ
  personal_tags : List String
deriving DecidableEq

/-- Validation performed by the `SimulationComplete` pydantic model on an
integer rating and a tag list. The class declares no `Field` constraint and
no validator on `rating`, so validation accepts every integer. -/
def simulationCompleteParse (rating : ℤ) (personal_tags : List String) :
    Except String SimulationCompleteData :=
  Except.ok { rating := rating, personal_tags := personal_tags }

/-- The `POST /simulation/complete/{id}` endpoint: parse the request body
through the schema, then hand the fields to the tracker unchanged. -/
def api_complete_simulation (svc : SimulationService) (simulation_id : String)
    (rating : ℤ) (personal_tags : List String) (now : ℚ) :
    SimulationService × Except SimError CompleteResult :=
  match simulationCompleteParse rating personal_tags with
  | Except.error e => (svc, Except.error (SimError.valueError e))
  | Except.ok d => complete_simulation svc simulation_id d.rating d.personal_tags now

/-- One entry of the `GET /simulation/active` response. -/
structure ActiveSummary where
  simulation_id : String
  content_title : String
  content_type : String
  progress : ℤ
  start_time : ℚ
deriving DecidableEq

/-- Loop body of `get_active_simulations`: walk the dict items captured at
entry, and for each session owned by the caller invoke
`get_simulation_progress` on the current service state (threading its state
updates) and collect a summary row. Each iteration consumes one slot of the
randomness oracles, indexed by `i`. A `ValueError` escaping from the
progress call (impossible while the session is live) aborts the loop. -/
def activeSimsGo (user_id : ℤ) (now : ℚ) (gate : ℕ → Bool) (choiceIdx : ℕ → ℕ) :
    List (String × Sim) → ℕ → SimulationService →
    SimulationService × Except SimError (List ActiveSummary)
  | [], _, svc => (svc, Except.ok [])
  | (sim_id, sim_data) :: rest, i, svc =>
    if sim_data.user_id = user_id then
      match get_simulation_progress svc sim_id now (gate i) (choiceIdx i) with
      | (svc1, Except.ok p) =>
        match activeSimsGo user_id now gate choiceIdx rest (i + 1) svc1 with
        | (svc2, Except.ok out) =>
          (svc2, Except.ok
            ({ simulation_id := sim_id, content_title := sim_data.content_title,
               content_type := sim_data.content_type, progress := p.progress,
               start_time := sim_data.start_time } :: out))
        | (svc2, Except.error e) => (svc2, Except.error e)
      | (svc1, Except.error e) => (svc1, Except.error e)
    else
      activeSimsGo user_id now gate choiceIdx rest i svc

/-- The `GET /simulation/active` endpoint: scan `active_simulations` for the
caller's sessions, recomputing each one's progress through
`get_simulation_progress` (which persists the recomputed percentage and may
emit events as a side effect). -/
def get_active_simulations (svc : SimulationService) (user_id : ℤ) (now : ℚ)
    (gate : ℕ → Bool) (choiceIdx : ℕ → ℕ) :
    SimulationService × Except SimError (List ActiveSummary) :=
  activeSimsGo user_id now gate choiceIdx svc.active_simulations 0 svc

theorem alistLookup_set_self {α β : Type} [DecidableEq α]
    (l : List (α × β)) (k : α) (v : β) :
    alistLookup (alistSet l k v) k = some v := by
  induction l with
  | nil => simp [alistSet, alistLookup]
  | cons p t ih =>
    obtain ⟨a, b⟩ := p
    by_cases h : a = k <;> simp [alistSet, alistLookup, h, ih]

theorem alistLookup_set_ne {α β : Type} [DecidableEq α]
    (l : List (α × β)) (k k' : α) (v : β) (hne : k' ≠ k) :
    alistLookup (alistSet l k v) k' = alistLookup l k' := by
  induction l with
  | nil =>
    simp only [alistSet, alistLookup]
    rw [if_neg (Ne.symm hne)]
  | cons p t ih =>
    obtain ⟨a, b⟩ := p
    simp only [alistSet]
    by_cases h : a = k
    · subst h
      rw [if_pos rfl]
      simp only [alistLookup]
      simp only [if_neg (Ne.symm hne)]
    · rw [if_neg h]
      simp only [alistLookup]
      by_cases h2 : a = k'
      · simp only [if_pos h2]
      · simp only [if_neg h2]
        exact ih

theorem alistLookup_remove_ne {α β : Type} [DecidableEq α]
    (l : List (α × β)) (k k' : α) (hne : k' ≠ k) :
    alistLookup (alistRemove l k) k' = alistLookup l k' := by
  induction l with
  | nil => rfl
  | cons p t ih =>
    obtain ⟨a, b⟩ := p
    simp only [alistRemove]
    by_cases h : a = k
    · rw [if_pos h]
      have hak : a ≠ k' := by
        rw [h]
        exact Ne.symm hne
      conv_rhs => rw [alistLookup]
      rw [if_neg hak]
    · rw [if_neg h]
      simp only [alistLookup]
      by_cases h2 : a = k'
      · simp only [if_pos h2]
      · simp only [if_neg h2]
        exact ih

theorem alistLookup_eq_none_of_not_mem {α β : Type} [DecidableEq α]
    (l : List (α × β)) (k : α) (h : k ∉ l.map Prod.fst) :
    alistLookup l k = none := by
  induction l with
  | nil => rfl
  | cons p t ih =>
    obtain ⟨a, b⟩ := p
    simp only [List.map_cons, List.mem_cons, not_or] at h
    simp only [alistLookup]
    rw [if_neg (Ne.symm h.1)]
    exact ih h.2

theorem mem_keys_of_alistLookup {α β : Type} [DecidableEq α]
    (l : List (α × β)) (k : α) (v : β) (h : alistLookup l k = some v) :
    k ∈ l.map Prod.fst := by
  induction l with
  | nil => simp [alistLookup] at h
  | cons p t ih =>
    obtain ⟨a, b⟩ := p
    by_cases ha : a = k
    · simp [ha]
    · simp only [alistLookup, if_neg ha] at h
      simp [ih h]

theorem alistLookup_remove_self {α β : Type} [DecidableEq α]
    (l : List (α × β)) (k : α) (hnd : (l.map Prod.fst).Nodup) :
    alistLookup (alistRemove l k) k = none := by
  induction l with
  | nil => rfl
  | cons p t ih =>
    obtain ⟨a, b⟩ := p
    simp only [List.map_cons, List.nodup_cons] at hnd
    by_cases h : a = k
    · subst h
      simp only [alistRemove, if_pos rfl]
      exact alistLookup_eq_none_of_not_mem t a hnd.1
    · simp [alistRemove, alistLookup, h, ih hnd.2]

theorem alistSet_map_fst_of_mem {α β : Type} [DecidableEq α]
    (l : List (α × β)) (k : α) (v : β) (h : k ∈ l.map Prod.fst) :
    (alistSet l k v).map Prod.fst = l.map Prod.fst := by
  induction l with
  | nil => simp at h
  | cons p t ih =>
    obtain ⟨a, b⟩ := p
    by_cases ha : a = k
    · subst ha
      simp [alistSet]
    · simp only [List.map_cons, List.mem_cons] at h
      rcases h with h | h

      · exact absurd h.symm ha
      · simp [alistSet, ha, ih h]

theorem alistLookup_of_mem_nodup {α β : Type} [DecidableEq α]
    (l : List (α × β)) (k : α) (v : β) (hmem : (k, v) ∈ l)
    (hnd : (l.map Prod.fst).Nodup) :
    alistLookup l k = some v := by
  induction l with
  | nil => simp at hmem
  | cons p t ih =>
    obtain ⟨a, b⟩ := p
    simp only [List.map_cons, List.nodup_cons] at hnd
    rcases List.mem_cons.mp hmem with h | h
    · obtain ⟨h1, h2⟩ := Prod.mk.injEq .. ▸ h.symm
      simp [alistLookup, h1.symm, h2]
    · have hak : a ≠ k := by
        intro he
        subst he
        exact hnd.1 (List.mem_map.mpr ⟨(a, v), h, rfl⟩)
      simp [alistLookup, hak, ih h hnd.2]

theorem pyInt_of_nonneg (q : ℚ) (h : 0 ≤ q) : pyInt q = ⌊q⌋ := by
  unfold pyInt
  rw [if_neg (not_lt.mpr h)]

theorem le_roundHalfEven (n : ℤ) (q : ℚ) (h : (n : ℚ) ≤ q) :
    n ≤ roundHalfEven q := by
  have h1 : n ≤ ⌊q⌋ := Int.le_floor.mpr h
  unfold roundHalfEven
  split_ifs <;> omega

theorem roundHalfEven_le (n : ℤ) (q : ℚ) (h : q ≤ (n : ℚ)) :
    roundHalfEven q ≤ n := by
  have h1 : ⌊q⌋ ≤ n := by
    have := Int.floor_le_floor h
    rwa [Int.floor_intCast] at this
  have hfl : (⌊q⌋ : ℚ) ≤ q := Int.floor_le q
  unfold roundHalfEven
  split_ifs with c1 c2 c3
  · exact h1
  all_goals
  · have hq : (⌊q⌋ : ℚ) + 1/2 ≤ q := by
      have := not_lt.mp c1
      linarith
    have hlt : (⌊q⌋ : ℚ) < (n : ℚ) := by linarith
    have : ⌊q⌋ < n := by exact_mod_cast hlt
    omega

theorem pyRound2_nonneg (q : ℚ) (h : 0 ≤ q) : 0 ≤ pyRound2 q := by
  unfold pyRound2
  have h1 : (0 : ℤ) ≤ roundHalfEven (q * 100) := by
    apply le_roundHalfEven
    push_cast
    linarith
  have h2 : (0 : ℚ) ≤ (roundHalfEven (q * 100) : ℚ) := by exact_mod_cast h1
  linarith

theorem pyRound2_le_ten (q : ℚ) (h : q ≤ 10) : pyRound2 q ≤ 10 := by
  unfold pyRound2
  have h1 : roundHalfEven (q * 100) ≤ (1000 : ℤ) := by
    apply roundHalfEven_le
    push_cast
    linarith
  have h2 : (roundHalfEven (q * 100) : ℚ) ≤ 1000 := by exact_mod_cast h1
  linarith

/-- The value returned by `get_simulation_progress` for a live session,
exposed as an equation so that each claim can reason about the payload
without re-unfolding the branching. -/
theorem get_simulation_progress_snd (svc : SimulationService) (key : String)
    (sim : Sim) (now : ℚ) (gate : Bool) (ci : ℕ)
    (hlive : alistLookup svc.active_simulations key = some sim) :
    (get_simulation_progress svc key now gate ci).2 = Except.ok
      { progress := min 100 (pyInt ((now - sim.start_time) / (sim.total_time : ℚ) * 100)),
        completed := decide
          (100 ≤ min 100 (pyInt ((now - sim.start_time) / (sim.total_time : ℚ) * 100))),
        event :=
          if 20 < min 100 (pyInt ((now - sim.start_time) / (sim.total_time : ℚ) * 100)) ∧
              sim.events.length < 3 ∧ gate = true then
            some (pyChoice (SIMULATION_EVENTS sim.content_type) ci)
          else none,
        content_title := sim.content_title,
        elapsed_time := pyInt (now - sim.start_time) } := by
  unfold get_simulation_progress
  rw [hlive]
  simp only []
  split_ifs with hc
  · rfl
  · rfl

/-- C1: for a live session, `progress` returns
`min(100, floor(elapsed / planned_duration * 100))`, never above 100, and
`completed` is true exactly when that value reaches 100, equivalently exactly
when `elapsed >= planned_duration`. -/
theorem progress_formula_and_saturation (svc : SimulationService) (key : String)
    (sim : Sim) (now : ℚ) (gate : Bool) (ci : ℕ)
    (hlive : alistLookup svc.active_simulations key = some sim)
    (hdur : 0 < sim.total_time) (hnow : sim.start_time ≤ now) :
    ∃ r : ProgressResult,
      (get_simulation_progress svc key now gate ci).2 = Except.ok r ∧
      r.progress = min 100 ⌊(now - sim.start_time) / (sim.total_time : ℚ) * 100⌋ ∧
      r.progress ≤ 100 ∧
      (r.completed = true ↔ 100 ≤ r.progress) ∧
      (r.completed = true ↔ (sim.total_time : ℚ) ≤ now - sim.start_time) := by
  have helapsed : (0 : ℚ) ≤ now - sim.start_time := by linarith
  have htpos : (0 : ℚ) < (sim.total_time : ℚ) := by exact_mod_cast hdur
  have hq : (0 : ℚ) ≤ (now - sim.start_time) / (sim.total_time : ℚ) * 100 :=
    mul_nonneg (div_nonneg helapsed (le_of_lt htpos)) (by norm_num)
  have hpy : pyInt ((now - sim.start_time) / (sim.total_time : ℚ) * 100) =
      ⌊(now - sim.start_time) / (sim.total_time : ℚ) * 100⌋ := pyInt_of_nonneg _ hq
  refine ⟨_, get_simulation_progress_snd svc key sim now gate ci hlive, ?_, ?_, ?_, ?_⟩
  · simp only [hpy]
  · exact min_le_left _ _
  · simp only [decide_eq_true_eq]
  · simp only [decide_eq_true_eq, hpy]
    constructor
    · intro h
      have h1 : (100 : ℤ) ≤ ⌊(now - sim.start_time) / (sim.total_time : ℚ) * 100⌋ :=
        (le_min_iff.mp h).2
      have h2 : (100 : ℚ) ≤ (now - sim.start_time) / (sim.total_time : ℚ) * 100 := by
        exact_mod_cast Int.le_floor.mp h1
      have h3 : (1 : ℚ) ≤ (now - sim.start_time) / (sim.total_time : ℚ) := by linarith
      have h4 := (one_le_div htpos).mp h3
      linarith
    · intro h
      have h3 : (1 : ℚ) ≤ (now - sim.start_time) / (sim.total_time : ℚ) :=
        (one_le_div htpos).mpr (by linarith)
      have h2 : (100 : ℚ) ≤ (now - sim.start_time) / (sim.total_time : ℚ) * 100 := by
        linarith
      exact le_min_iff.mpr ⟨le_refl _, Int.le_floor.mpr (by exact_mod_cast h2)⟩

/-- Live session fixture: a book session 30 seconds long, started at time 0,
owned by user 1, with its `started` ledger row. -/
def wSim : Sim :=
  { interaction_id := 0, user_id := 1, content_type := "book", content_id := 1,
    content_title := "B", start_time := 0, total_time := 30, events := [] }

/-- Ledger row fixture matching `wSim`. -/
def wInteraction : UserInteraction :=
  { user_id := 1, content_type := "book", content_id := 1,
    interaction_type := "started", rating := none, progress_percent := 0,
    start_date := 0, completion_date := none, simulation_duration := none,
    tags_extracted := [] }

/-- Service fixture: one catalog book with popularity 8, the ledger row of
`wSim`, and `wSim` live under key "k". -/
def wSvc : SimulationService :=
  { books := [(1, { title := "B", popularity_score := 8 })],
    movies := [], games := [],
    interactions := [(0, wInteraction)], next_interaction_id := 1,
    active_simulations := [("k", wSim)] }

theorem progress_formula_and_saturation_witness :
    ∃ r : ProgressResult,
      (get_simulation_progress wSvc "k" 15 false 0).2 = Except.ok r ∧
      r.progress = min 100 ⌊((15 : ℚ) - wSim.start_time) / (wSim.total_time : ℚ) * 100⌋ ∧
      r.progress ≤ 100 ∧
      (r.completed = true ↔ 100 ≤ r.progress) ∧
      (r.completed = true ↔ (wSim.total_time : ℚ) ≤ 15 - wSim.start_time) :=
  progress_formula_and_saturation wSvc "k" wSim 15 false 0 (by decide)
    (by decide) (by decide)

theorem update_content_popularity_interactions (svc : SimulationService)
    (ct : String) (cid : ℤ) (r : ℤ) :
    (update_content_popularity svc ct cid r).interactions = svc.interactions := by
  unfold update_content_popularity
  cases get_content svc ct cid with
  | none => rfl
  | some c =>
    simp only []
    unfold set_content
    split_ifs <;> rfl

theorem update_content_popularity_active (svc : SimulationService)
    (ct : String) (cid : ℤ) (r : ℤ) :
    (update_content_popularity svc ct cid r).active_simulations =
      svc.active_simulations := by
  unfold update_content_popularity
  cases get_content svc ct cid with
  | none => rfl
  | some c =>
    simp only []
    unfold set_content
    split_ifs <;> rfl

/-- C8: across one `progress` call the session's event list either stays or
gains exactly one entry; it gains one only when the computed progress exceeds
20, the random gate passed, and fewer than 3 events had been emitted; it
never grows past 3 entries, and at 3 entries it never grows again. -/
theorem events_bounded_growth (svc : SimulationService) (key : String)
    (sim : Sim) (now : ℚ) (gate : Bool) (ci : ℕ)
    (hlive : alistLookup svc.active_simulations key = some sim) :
    ∃ sim2 : Sim,
      alistLookup (get_simulation_progress svc key now gate ci).1.active_simulations
        key = some sim2 ∧
      (sim2.events = sim.events ∨ ∃ ev, sim2.events = sim.events ++ [ev]) ∧
      (sim2.events ≠ sim.events →
        20 < min 100 (pyInt ((now - sim.start_time) / (sim.total_time : ℚ) * 100)) ∧
          gate = true ∧ sim.events.length < 3) ∧
      (sim.events.length ≤ 3 → sim2.events.length ≤ 3) ∧
      (sim.events.length = 3 → sim2.events = sim.events) := by
  unfold get_simulation_progress
  rw [hlive]
  simp only []
  cases hri : alistLookup svc.interactions sim.interaction_id with
  | none =>
    simp only [hri]
    split_ifs with hc
    · refine ⟨_, alistLookup_set_self _ _ _, ?_, ?_, ?_, ?_⟩
      · exact Or.inr ⟨_, rfl⟩
      · intro _
        exact ⟨hc.1, hc.2.2, hc.2.1⟩
      · intro _
        simp only [List.length_append, List.length_singleton]
        omega
      · intro h3
        exact absurd hc.2.1 (by omega)
    · exact ⟨sim, hlive, Or.inl rfl, fun h => absurd rfl h, fun h => h, fun _ => rfl⟩
  | some interaction =>
    simp only [hri]
    split_ifs with hc
    · refine ⟨_, alistLookup_set_self _ _ _, ?_, ?_, ?_, ?_⟩
      · exact Or.inr ⟨_, rfl⟩
      · intro _
        exact ⟨hc.1, hc.2.2, hc.2.1⟩
      · intro _
        simp only [List.length_append, List.length_singleton]
        omega
      · intro h3
        exact absurd hc.2.1 (by omega)
    · exact ⟨sim, hlive, Or.inl rfl, fun h => absurd rfl h, fun h => h, fun _ => rfl⟩

theorem events_bounded_growth_witness :
    ∃ sim2 : Sim,
      alistLookup (get_simulation_progress wSvc "k" 15 true 0).1.active_simulations
        "k" = some sim2 ∧
      (sim2.events = wSim.events ∨ ∃ ev, sim2.events = wSim.events ++ [ev]) ∧
      (sim2.events ≠ wSim.events →
        20 < min 100 (pyInt (((15 : ℚ) - wSim.start_time) / (wSim.total_time : ℚ) * 100)) ∧
          true = true ∧ wSim.events.length < 3) ∧
      (wSim.events.length ≤ 3 → sim2.events.length ≤ 3) ∧
      (wSim.events.length = 3 → sim2.events = wSim.events) :=
  events_bounded_growth wSvc "k" wSim 15 true 0 (by decide)

theorem get_simulation_progress_not_found (st : SimulationService) (key : String)
    (now : ℚ) (g : Bool) (ci : ℕ)
    (h : alistLookup st.active_simulations key = none) :
    get_simulation_progress st key now g ci =
      (st, Except.error (SimError.valueError "Simulation not found")) := by
  simp only [get_simulation_progress, h]

theorem complete_simulation_not_found (st : SimulationService) (key : String)
    (rating : ℤ) (tags : List String) (now : ℚ)
    (h : alistLookup st.active_simulations key = none) :
    complete_simulation st key rating tags now =
      (st, Except.error (SimError.valueError "Simulation not found")) := by
  simp only [complete_simulation, h]

theorem cancel_simulation_not_found (st : SimulationService) (key : String)
    (now : ℚ) (h : alistLookup st.active_simulations key = none) :
    cancel_simulation st key now =
      (st, Except.error (SimError.valueError "Simulation not found")) := by
  simp only [cancel_simulation, h]

/-- The report a successful `complete_simulation` returns. -/
def completePayload (sim : Sim) (rating : ℤ) (now : ℚ) : CompleteResult :=
  let msg := "Вы завершили " ++ get_action_verb sim.content_type ++ " " ++ squote ++ sim.content_title ++ squote ++ "!"
  { message := msg, rating := rating, duration := pyInt (now - sim.start_time),
    experience_gained := calculate_experience rating (pyInt (now - sim.start_time)) }

/-- The finalized form a successful `complete_simulation` writes over the
ledger row. -/
def completedRecord (i : UserInteraction) (sim : Sim) (rating : ℤ)
    (tags : List String) (now : ℚ) : UserInteraction :=
  { i with
    interaction_type := "completed", rating := some rating,
    progress_percent := 100, completion_date := some now,
    simulation_duration := some (pyInt (now - sim.start_time)),
    tags_extracted := if tags.isEmpty then i.tags_extracted
      else pySetUnion i.tags_extracted tags }

/-- The database state after a successful `complete_simulation` on a live
session `sim` whose ledger row `i` exists: the row finalized, the session
removed, the popularity blended. -/
def completedState (svc : SimulationService) (key : String) (sim : Sim)
    (i : UserInteraction) (rating : ℤ) (tags : List String) (now : ℚ) :
    SimulationService :=
  update_content_popularity
    { svc with
      interactions := alistSet svc.interactions sim.interaction_id
        (completedRecord i sim rating tags now),
      active_simulations := alistRemove svc.active_simulations key }
    sim.content_type sim.content_id rating

/-- Equation for `complete_simulation` on a live session whose ledger row
exists. -/
theorem complete_simulation_of_live (svc : SimulationService) (key : String)
    (sim : Sim) (i : UserInteraction) (rating : ℤ) (tags : List String)
    (now : ℚ)
    (hlive : alistLookup svc.active_simulations key = some sim)
    (hrec : alistLookup svc.interactions sim.interaction_id = some i) :
    complete_simulation svc key rating tags now =
      (completedState svc key sim i rating tags now,
       Except.ok (completePayload sim rating now)) := by
  simp only [complete_simulation, hlive, hrec]
  rfl

/-- C2: a successful `complete` marks the ledger row `completed` with the
given rating and evicts the session, after which `progress`, `complete` and
`cancel` on the same key all fail with the `Simulation not found` error; in
particular the first `complete` succeeds and a second one fails. -/
theorem complete_finalizes_and_evicts (svc : SimulationService) (key : String)
    (sim : Sim) (i : UserInteraction) (rating : ℤ) (tags : List String)
    (now now2 : ℚ) (g : Bool) (ci : ℕ) (r2 : ℤ) (t2 : List String)
    (hnd : (svc.active_simulations.map Prod.fst).Nodup)
    (hlive : alistLookup svc.active_simulations key = some sim)
    (hrec : alistLookup svc.interactions sim.interaction_id = some i) :
    (∃ out : CompleteResult,
      (complete_simulation svc key rating tags now).2 = Except.ok out ∧
      out.rating = rating) ∧
    (∃ i2 : UserInteraction,
      alistLookup (complete_simulation svc key rating tags now).1.interactions
        sim.interaction_id = some i2 ∧
      i2.interaction_type = "completed" ∧ i2.rating = some rating) ∧
    alistLookup (complete_simulation svc key rating tags now).1.active_simulations
      key = none ∧
    (get_simulation_progress (complete_simulation svc key rating tags now).1
        key now2 g ci).2 =
      Except.error (SimError.valueError "Simulation not found") ∧
    (complete_simulation (complete_simulation svc key rating tags now).1
        key r2 t2 now2).2 =
      Except.error (SimError.valueError "Simulation not found") ∧
    (cancel_simulation (complete_simulation svc key rating tags now).1
        key now2).2 =
      Except.error (SimError.valueError "Simulation not found") := by
  have hmain := complete_simulation_of_live svc key sim i rating tags now hlive hrec
  have hkey_none :
      alistLookup (complete_simulation svc key rating tags now).1.active_simulations
        key = none := by
    rw [hmain]
    show alistLookup (completedState svc key sim i rating tags now).active_simulations
      key = none
    unfold completedState
    rw [update_content_popularity_active]
    exact alistLookup_remove_self _ _ hnd
  refine ⟨?_, ?_, hkey_none, ?_, ?_, ?_⟩
  · exact ⟨completePayload sim rating now, by rw [hmain], rfl⟩
  · refine ⟨completedRecord i sim rating tags now, ?_, rfl, rfl⟩
    rw [hmain]
    show alistLookup (completedState svc key sim i rating tags now).interactions
      sim.interaction_id = some (completedRecord i sim rating tags now)
    unfold completedState
    rw [update_content_popularity_interactions]
    exact alistLookup_set_self _ _ _
  · rw [get_simulation_progress_not_found _ _ _ _ _ hkey_none]
  · rw [complete_simulation_not_found _ _ _ _ _ hkey_none]
  · rw [cancel_simulation_not_found _ _ _ hkey_none]

theorem complete_finalizes_and_evicts_witness :
    (∃ out : CompleteResult,
      (complete_simulation wSvc "k" 7 [] 20).2 = Except.ok out ∧
      out.rating = 7) ∧
    (∃ i2 : UserInteraction,
      alistLookup (complete_simulation wSvc "k" 7 [] 20).1.interactions
        wSim.interaction_id = some i2 ∧
      i2.interaction_type = "completed" ∧ i2.rating = some 7) ∧
    alistLookup (complete_simulation wSvc "k" 7 [] 20).1.active_simulations
      "k" = none ∧
    (get_simulation_progress (complete_simulation wSvc "k" 7 [] 20).1
        "k" 25 false 0).2 =
      Except.error (SimError.valueError "Simulation not found") ∧
    (complete_simulation (complete_simulation wSvc "k" 7 [] 20).1
        "k" 9 [] 25).2 =
      Except.error (SimError.valueError "Simulation not found") ∧
    (cancel_simulation (complete_simulation wSvc "k" 7 [] 20).1 "k" 25).2 =
      Except.error (SimError.valueError "Simulation not found") :=
  complete_finalizes_and_evicts wSvc "k" wSim wInteraction 7 [] 20 25 false 0
    9 [] (by decide) (by decide) (by decide)

/-- The ledger row `start_simulation` creates. -/
def startedRecord (uid : ℤ) (ct : String) (cid : ℤ) (now : ℚ) : UserInteraction :=
  { user_id := uid, content_type := ct, content_id := cid,
    interaction_type := "started", rating := none, progress_percent := 0,
    start_date := now, completion_date := none, simulation_duration := none,
    tags_extracted := [] }

theorem get_content_type_cases (svc : SimulationService) (ct : String) (cid : ℤ)
    (c : Content) (h : get_content svc ct cid = some c) :
    ct = "book" ∨ ct = "movie" ∨ ct = "game" := by
  unfold get_content at h
  split_ifs at h with h1 h2 h3
  · exact Or.inl h1
  · exact Or.inr (Or.inl h2)
  · exact Or.inr (Or.inr h3)

/-- C3: `start` fails with the content-not-found error exactly when the
catalog has no such item, and in that case changes nothing; on success it
creates a `started` ledger row with progress 0 and start date `now` under
the fresh interaction id, and the planned duration is `randint` over the
configured `[min, max]` range of the content type: it always lands in the
range, and every duration in the range is drawn for some entropy value. -/
theorem start_checks_catalog_and_creates (svc : SimulationService) (uid : ℤ)
    (ct : String) (cid : ℤ) (now : ℚ) (rand : ℕ) :
    ((start_simulation svc uid ct cid now rand).2 = Except.error
        (SimError.valueError ("Content not found: " ++ ct ++ " " ++ toString cid)) ↔
      get_content svc ct cid = none) ∧
    (get_content svc ct cid = none → (start_simulation svc uid ct cid now rand).1 = svc) ∧
    (∀ c : Content, get_content svc ct cid = some c →
      ∃ mn mx : ℕ, SIMULATION_TIMES ct = some (mn, mx) ∧
        (∃ out : StartResult,
          (start_simulation svc uid ct cid now rand).2 = Except.ok out ∧
          out.estimated_time = randint mn mx rand) ∧
        alistLookup (start_simulation svc uid ct cid now rand).1.interactions
          svc.next_interaction_id = some (startedRecord uid ct cid now) ∧
        mn ≤ randint mn mx rand ∧ randint mn mx rand ≤ mx ∧
        (∀ d : ℕ, mn ≤ d → d ≤ mx → ∃ r2 : ℕ, randint mn mx r2 = d)) := by
  by_cases hc : get_content svc ct cid = none
  · refine ⟨?_, fun _ => ?_, fun c hcc => absurd (hc ▸ hcc) (by simp)⟩
    · simp only [start_simulation, hc]
    · simp only [start_simulation, hc]
  · obtain ⟨c0, hc0⟩ := Option.ne_none_iff_exists.mp hc
    have hc0 : get_content svc ct cid = some c0 := hc0.symm
    have htimes : ∃ mn mx : ℕ, SIMULATION_TIMES ct = some (mn, mx) ∧ mn ≤ mx := by
      rcases get_content_type_cases svc ct cid c0 hc0 with h | h | h <;> subst h
      · exact ⟨30, 180, rfl, by norm_num⟩
      · exact ⟨20, 60, rfl, by norm_num⟩
      · exact ⟨45, 300, rfl, by norm_num⟩
    obtain ⟨mn, mx, ht, hmn⟩ := htimes
    have hmod : rand % (mx - mn + 1) < mx - mn + 1 := Nat.mod_lt _ (by omega)
    have hok : (start_simulation svc uid ct cid now rand).2 = Except.ok
        ⟨simulation_key uid ct cid, svc.next_interaction_id, randint mn mx rand,
          c0.title, "Начинаем " ++ get_action_verb ct ++ " " ++ squote ++ c0.title ++ squote ++ "!"⟩ := by
      simp only [start_simulation, hc0, ht]
    refine ⟨?_, fun h => absurd (hc0.symm.trans h) (by simp), fun c hcc => ?_⟩
    · rw [hok]
      constructor
      · intro h
        exact absurd h (by simp)
      · intro h
        exact absurd (hc0.symm.trans h) (by simp)
    · refine ⟨mn, mx, ht, ⟨_, hok, rfl⟩, ?_, ?_, ?_, ?_⟩
      · simp only [start_simulation, hc0, ht]
        exact alistLookup_set_self _ _ _
      · exact Nat.le_add_right _ _
      · unfold randint
        omega
      · intro d h1 h2
        refine ⟨d - mn, ?_⟩
        unfold randint
        rw [Nat.mod_eq_of_lt (by omega)]
        omega

theorem start_checks_catalog_and_creates_witness :
    ∃ mn mx : ℕ, SIMULATION_TIMES "book" = some (mn, mx) ∧
      (∃ out : StartResult,
        (start_simulation wSvc 1 "book" 1 0 5).2 = Except.ok out ∧
        out.estimated_time = randint mn mx 5) ∧
      alistLookup (start_simulation wSvc 1 "book" 1 0 5).1.interactions
        wSvc.next_interaction_id = some (startedRecord 1 "book" 1 0) ∧
      mn ≤ randint mn mx 5 ∧ randint mn mx 5 ≤ mx ∧
      (∀ d : ℕ, mn ≤ d → d ≤ mx → ∃ r2 : ℕ, randint mn mx r2 = d) :=
  (start_checks_catalog_and_creates wSvc 1 "book" 1 0 5).2.2
    { title := "B", popularity_score := 8 } (by decide)

theorem get_content_congr (svc svc2 : SimulationService) (ct : String) (cid : ℤ)
    (hb : svc2.books = svc.books) (hm : svc2.movies = svc.movies)
    (hg : svc2.games = svc.games) :
    get_content svc2 ct cid = get_content svc ct cid := by
  unfold get_content
  rw [hb, hm, hg]

theorem get_content_set_content_self (svc : SimulationService) (ct : String)
    (cid : ℤ) (c c0 : Content) (h : get_content svc ct cid = some c0) :
    get_content (set_content svc ct cid c) ct cid = some c := by
  rcases get_content_type_cases svc ct cid c0 h with h1 | h1 | h1 <;> subst h1 <;>
    simp [get_content, set_content, alistLookup_set_self]

theorem update_content_popularity_get_content (svc : SimulationService)
    (ct : String) (cid : ℤ) (r : ℤ) (c : Content)
    (h : get_content svc ct cid = some c) :
    get_content (update_content_popularity svc ct cid r) ct cid =
      some ({ c with popularity_score := pyRound2 (c.popularity_score * (9/10) + (r : ℚ) * (1/10)) }) := by
  unfold update_content_popularity
  rw [h]
  exact get_content_set_content_self svc ct cid _ c h

/-- C4: a successful `complete` with rating `r` on an item with popularity
`p` stores `round(p * 0.9 + r * 0.1, 2)` as the new popularity; under the
documented preconditions `p` in `[0, 10]` and `r` in `[1, 10]` this value
already lies in `[0, 10]`, so it coincides with its clamp to `[0, 10]`. -/
theorem complete_updates_popularity (svc : SimulationService) (key : String)
    (sim : Sim) (i : UserInteraction) (c : Content) (rating : ℤ)
    (tags : List String) (now : ℚ)
    (hlive : alistLookup svc.active_simulations key = some sim)
    (hrec : alistLookup svc.interactions sim.interaction_id = some i)
    (hcontent : get_content svc sim.content_type sim.content_id = some c)
    (hp0 : 0 ≤ c.popularity_score) (hp10 : c.popularity_score ≤ 10)
    (hr1 : 1 ≤ rating) (hr10 : rating ≤ 10) :
    ∃ (out : CompleteResult) (c2 : Content),
      (complete_simulation svc key rating tags now).2 = Except.ok out ∧
      get_content (complete_simulation svc key rating tags now).1
        sim.content_type sim.content_id = some c2 ∧
      c2.popularity_score =
        pyRound2 (c.popularity_score * (9/10) + (rating : ℚ) * (1/10)) ∧
      max 0 (min 10 c2.popularity_score) = c2.popularity_score := by
  have hmain := complete_simulation_of_live svc key sim i rating tags now hlive hrec
  have hmid : get_content
      { svc with
        interactions := alistSet svc.interactions sim.interaction_id
          (completedRecord i sim rating tags now),
        active_simulations := alistRemove svc.active_simulations key }
      sim.content_type sim.content_id = some c := by
    exact (get_content_congr _ svc sim.content_type sim.content_id
      rfl rfl rfl).trans hcontent
  have hget : get_content (complete_simulation svc key rating tags now).1
      sim.content_type sim.content_id =
      some ({ c with popularity_score := pyRound2 (c.popularity_score * (9/10) + (rating : ℚ) * (1/10)) }) := by
    rw [hmain]
    exact update_content_popularity_get_content _ _ _ _ _ hmid
  refine ⟨completePayload sim rating now, _, by rw [hmain], hget, rfl, ?_⟩
  have hrq1 : (1 : ℚ) ≤ (rating : ℚ) := by exact_mod_cast hr1
  have hrq10 : (rating : ℚ) ≤ 10 := by exact_mod_cast hr10
  have hq0 : (0 : ℚ) ≤ c.popularity_score * (9/10) + (rating : ℚ) * (1/10) := by
    nlinarith
  have hq10 : c.popularity_score * (9/10) + (rating : ℚ) * (1/10) ≤ 10 := by
    nlinarith
  have hlo := pyRound2_nonneg _ hq0
  have hhi := pyRound2_le_ten _ hq10
  rw [min_eq_right hhi, max_eq_right hlo]

theorem complete_updates_popularity_witness :
    ∃ c2 : Content,
      get_content (complete_simulation wSvc "k" 10 [] 20).1
        wSim.content_type wSim.content_id = some c2 ∧
      c2.popularity_score = 41/5 := by
  obtain ⟨out, c2, _, hget, hval, _⟩ :=
    complete_updates_popularity wSvc "k" wSim wInteraction
      { title := "B", popularity_score := 8 } 10 [] 20
      (by decide) (by decide) (by decide) (by decide) (by decide)
      (by decide) (by decide)
  refine ⟨c2, hget, ?_⟩
  rw [hval]
  unfold pyRound2 roundHalfEven
  norm_num

/-- C5: `start` on a key that already has a live session does not fail: it
succeeds and silently overwrites the map entry with the fresh session (same
key set, new interaction id, new start time, empty events), orphaning the
earlier session. -/
theorem start_overwrites_live_session (svc : SimulationService) (uid : ℤ)
    (ct : String) (cid : ℤ) (now : ℚ) (rand : ℕ) (oldSim : Sim) (c : Content)
    (hc : get_content svc ct cid = some c)
    (hold : alistLookup svc.active_simulations (simulation_key uid ct cid) =
      some oldSim) :
    (∃ out : StartResult, (start_simulation svc uid ct cid now rand).2 = Except.ok out) ∧
    (∃ newSim : Sim,
      alistLookup (start_simulation svc uid ct cid now rand).1.active_simulations
        (simulation_key uid ct cid) = some newSim ∧
      newSim.interaction_id = svc.next_interaction_id ∧
      newSim.start_time = now ∧ newSim.events = []) ∧
    (start_simulation svc uid ct cid now rand).1.active_simulations.map Prod.fst =
      svc.active_simulations.map Prod.fst := by
  have htimes : ∃ mn mx : ℕ, SIMULATION_TIMES ct = some (mn, mx) := by
    rcases get_content_type_cases svc ct cid c hc with h | h | h <;> subst h
    · exact ⟨30, 180, rfl⟩
    · exact ⟨20, 60, rfl⟩
    · exact ⟨45, 300, rfl⟩
  obtain ⟨mn, mx, ht⟩ := htimes
  have hmem := mem_keys_of_alistLookup _ _ _ hold
  refine ⟨?_, ?_, ?_⟩
  · refine ⟨⟨simulation_key uid ct cid, svc.next_interaction_id, randint mn mx rand,
      c.title, "Начинаем " ++ get_action_verb ct ++ " " ++ squote ++ c.title ++ squote ++ "!"⟩, ?_⟩
    simp only [start_simulation, hc, ht]
  · refine ⟨⟨svc.next_interaction_id, uid, ct, cid, c.title, now, randint mn mx rand, []⟩,
      ?_, rfl, rfl, rfl⟩
    simp only [start_simulation, hc, ht]
    exact alistLookup_set_self _ _ _
  · simp only [start_simulation, hc, ht]
    exact alistSet_map_fst_of_mem _ _ _ hmem

/-- Fixture placing `wSim` under its canonical composite session key. -/
def wSvcB : SimulationService :=
  { wSvc with active_simulations := [("1_book_1", wSim)] }

theorem start_overwrites_live_session_witness :
    (∃ out : StartResult, (start_simulation wSvcB 1 "book" 1 5 0).2 = Except.ok out) ∧
    (∃ newSim : Sim,
      alistLookup (start_simulation wSvcB 1 "book" 1 5 0).1.active_simulations
        (simulation_key 1 "book" 1) = some newSim ∧
      newSim.interaction_id = wSvcB.next_interaction_id ∧
      newSim.start_time = 5 ∧ newSim.events = []) ∧
    (start_simulation wSvcB 1 "book" 1 5 0).1.active_simulations.map Prod.fst =
      wSvcB.active_simulations.map Prod.fst :=
  start_overwrites_live_session wSvcB 1 "book" 1 5 0 wSim
    { title := "B", popularity_score := 8 } (by decide) (by decide)

/-- The form `cancel_simulation` writes over the ledger row: only
`interaction_type` and `completion_date` change; in particular
`progress_percent` keeps its last observed value. -/
def droppedRecord (i : UserInteraction) (now : ℚ) : UserInteraction :=
  { i with interaction_type := "dropped", completion_date := some now }

/-- C6: `cancel` on a live session succeeds, rewrites the ledger row to
`dropped` with completion date `now` (leaving `progress_percent` and every
other field untouched), evicts the session, and changes nothing else: all
three catalog tables (hence every popularity score) and every other ledger
row are exactly as before. -/
theorem cancel_drops_and_preserves (svc : SimulationService) (key : String)
    (sim : Sim) (i : UserInteraction) (now : ℚ)
    (hnd : (svc.active_simulations.map Prod.fst).Nodup)
    (hlive : alistLookup svc.active_simulations key = some sim)
    (hrec : alistLookup svc.interactions sim.interaction_id = some i) :
    (∃ out : CancelResult, (cancel_simulation svc key now).2 = Except.ok out) ∧
    alistLookup (cancel_simulation svc key now).1.interactions sim.interaction_id =
      some (droppedRecord i now) ∧
    (droppedRecord i now).progress_percent = i.progress_percent ∧
    (droppedRecord i now).rating = i.rating ∧
    alistLookup (cancel_simulation svc key now).1.active_simulations key = none ∧
    (cancel_simulation svc key now).1.books = svc.books ∧
    (cancel_simulation svc key now).1.movies = svc.movies ∧
    (cancel_simulation svc key now).1.games = svc.games ∧
    (∀ j : ℕ, j ≠ sim.interaction_id →
      alistLookup (cancel_simulation svc key now).1.interactions j =
        alistLookup svc.interactions j) := by
  have hmain : cancel_simulation svc key now =
      ({ svc with
         interactions := alistSet svc.interactions sim.interaction_id
           (droppedRecord i now),
         active_simulations := alistRemove svc.active_simulations key },
       Except.ok ⟨"Вы прекратили " ++ get_action_verb sim.content_type ++ " " ++ squote ++ sim.content_title ++ squote⟩) := by
    simp only [cancel_simulation, hlive, hrec]
    rfl
  rw [hmain]
  refine ⟨⟨_, rfl⟩, alistLookup_set_self _ _ _, rfl, rfl,
    alistLookup_remove_self _ _ hnd, rfl, rfl, rfl, ?_⟩
  intro j hj
  exact alistLookup_set_ne _ _ _ _ hj

theorem cancel_drops_and_preserves_witness :
    (∃ out : CancelResult, (cancel_simulation wSvc "k" 9).2 = Except.ok out) ∧
    alistLookup (cancel_simulation wSvc "k" 9).1.interactions wSim.interaction_id =
      some (droppedRecord wInteraction 9) ∧
    (droppedRecord wInteraction 9).progress_percent = wInteraction.progress_percent ∧
    (droppedRecord wInteraction 9).rating = wInteraction.rating ∧
    alistLookup (cancel_simulation wSvc "k" 9).1.active_simulations "k" = none ∧
    (cancel_simulation wSvc "k" 9).1.books = wSvc.books ∧
    (cancel_simulation wSvc "k" 9).1.movies = wSvc.movies ∧
    (cancel_simulation wSvc "k" 9).1.games = wSvc.games ∧
    (∀ j : ℕ, j ≠ wSim.interaction_id →
      alistLookup (cancel_simulation wSvc "k" 9).1.interactions j =
        alistLookup wSvc.interactions j) :=
  cancel_drops_and_preserves wSvc "k" wSim wInteraction 9
    (by decide) (by decide) (by decide)

/-- C7 counterexample: the claim says the caller layer rejects ratings
outside `[1, 10]` before invoking `complete`. It does not: the
`SimulationComplete` schema accepts rating 11 (it declares no constraint),
the endpoint forwards it, the tracker completes successfully, and the
ledger row stores rating 11 — even though 11 is outside `[1, 10]`. -/
theorem rating_validation_missing :
    simulationCompleteParse 11 [] = Except.ok ⟨11, []⟩ ∧
    (api_complete_simulation wSvc "k" 11 [] 20).2 =
      Except.ok (completePayload wSim 11 20) ∧
    alistLookup (api_complete_simulation wSvc "k" 11 [] 20).1.interactions
      wSim.interaction_id = some (completedRecord wInteraction wSim 11 [] 20) ∧
    (completedRecord wInteraction wSim 11 [] 20).rating = some 11 ∧
    ¬(1 ≤ (11 : ℤ) ∧ (11 : ℤ) ≤ 10) := by
  have hmain := complete_simulation_of_live wSvc "k" wSim wInteraction 11 [] 20
    (by decide) (by decide)
  refine ⟨rfl, ?_, ?_, rfl, by decide⟩
  · show (complete_simulation wSvc "k" 11 [] 20).2 = _
    rw [hmain]
  · show alistLookup (complete_simulation wSvc "k" 11 [] 20).1.interactions
      wSim.interaction_id = _
    rw [hmain]
    show alistLookup (completedState wSvc "k" wSim wInteraction 11 [] 20).interactions
      wSim.interaction_id = _
    unfold completedState
    rw [update_content_popularity_interactions]
    exact alistLookup_set_self _ _ _

/-- C7 amended: the caller layer performs no range validation on the rating:
the `SimulationComplete` schema accepts every integer rating unchanged, the
endpoint forwards it verbatim, and a `complete` on a live session stores it
as-is in the ledger row, so the tracker cannot assume the rating lies in
`[1, 10]`. -/
theorem rating_passes_through_unvalidated (svc : SimulationService)
    (key : String) (sim : Sim) (i : UserInteraction) (rating : ℤ)
    (tags : List String) (now : ℚ)
    (hlive : alistLookup svc.active_simulations key = some sim)
    (hrec : alistLookup svc.interactions sim.interaction_id = some i) :
    simulationCompleteParse rating tags = Except.ok ⟨rating, tags⟩ ∧
    ∃ i2 : UserInteraction,
      alistLookup (api_complete_simulation svc key rating tags now).1.interactions
        sim.interaction_id = some i2 ∧ i2.rating = some rating := by
  have hmain := complete_simulation_of_live svc key sim i rating tags now hlive hrec
  refine ⟨rfl, completedRecord i sim rating tags now, ?_, rfl⟩
  show alistLookup (complete_simulation svc key rating tags now).1.interactions
    sim.interaction_id = _
  rw [hmain]
  show alistLookup (completedState svc key sim i rating tags now).interactions
    sim.interaction_id = _
  unfold completedState
  rw [update_content_popularity_interactions]
  exact alistLookup_set_self _ _ _

theorem rating_passes_through_unvalidated_witness :
    simulationCompleteParse 42 [] = Except.ok ⟨42, []⟩ ∧
    ∃ i2 : UserInteraction,
      alistLookup (api_complete_simulation wSvc "k" 42 [] 20).1.interactions
        wSim.interaction_id = some i2 ∧ i2.rating = some 42 :=
  rating_passes_through_unvalidated wSvc "k" wSim wInteraction 42 [] 20
    (by decide) (by decide)

/-- C10: completing a live session whose ledger row is missing from the
store is neither atomic nor total: the session is evicted and the popularity
update is performed, and only then the call fails — with the unbound-local
error, not the not-found error — because `actual_duration` is assigned only
on the branch where the ledger row exists. -/
theorem complete_missing_record_partial (svc : SimulationService) (key : String)
    (sim : Sim) (rating : ℤ) (tags : List String) (now : ℚ)
    (hnd : (svc.active_simulations.map Prod.fst).Nodup)
    (hlive : alistLookup svc.active_simulations key = some sim)
    (hnorec : alistLookup svc.interactions sim.interaction_id = none) :
    (complete_simulation svc key rating tags now).2 =
      Except.error SimError.unboundLocalError ∧
    (complete_simulation svc key rating tags now).2 ≠
      Except.error (SimError.valueError "Simulation not found") ∧
    alistLookup (complete_simulation svc key rating tags now).1.active_simulations
      key = none ∧
    (∀ c : Content, get_content svc sim.content_type sim.content_id = some c →
      get_content (complete_simulation svc key rating tags now).1
        sim.content_type sim.content_id =
        some ({ c with popularity_score := pyRound2 (c.popularity_score * (9/10) + (rating : ℚ) * (1/10)) })) := by
  have hmain : complete_simulation svc key rating tags now =
      (update_content_popularity
        { svc with active_simulations := alistRemove svc.active_simulations key }
        sim.content_type sim.content_id rating,
       Except.error SimError.unboundLocalError) := by
    simp only [complete_simulation, hlive, hnorec]
  rw [hmain]
  refine ⟨rfl, by simp, ?_, ?_⟩
  · show alistLookup (update_content_popularity
      { svc with active_simulations := alistRemove svc.active_simulations key }
      sim.content_type sim.content_id rating).active_simulations key = none
    rw [update_content_popularity_active]
    exact alistLookup_remove_self _ _ hnd
  · intro c hc
    have hmid : get_content
        { svc with active_simulations := alistRemove svc.active_simulations key }
        sim.content_type sim.content_id = some c :=
      (get_content_congr _ svc sim.content_type sim.content_id rfl rfl rfl).trans hc
    exact update_content_popularity_get_content _ _ _ _ _ hmid

/-- Fixture: the live session `wSim` whose ledger row is absent. -/
def wSvcC : SimulationService := { wSvc with interactions := [] }

theorem complete_missing_record_partial_witness :
    (complete_simulation wSvcC "k" 10 [] 20).2 =
      Except.error SimError.unboundLocalError ∧
    (complete_simulation wSvcC "k" 10 [] 20).2 ≠
      Except.error (SimError.valueError "Simulation not found") ∧
    alistLookup (complete_simulation wSvcC "k" 10 [] 20).1.active_simulations
      "k" = none ∧
    get_content (complete_simulation wSvcC "k" 10 [] 20).1
      wSim.content_type wSim.content_id =
      some { title := "B", popularity_score := pyRound2 ((8 : ℚ) * (9/10) + (10 : ℚ) * (1/10)) } := by
  obtain ⟨h1, h2, h3, h4⟩ := complete_missing_record_partial wSvcC "k" wSim 10 [] 20
    (by decide) (by decide) (by decide)
  exact ⟨h1, h2, h3, h4 { title := "B", popularity_score := 8 } (by decide)⟩

/-- The progress percentage `get_simulation_progress` computes for a session
at time `now`: `min(100, int(elapsed / total_time * 100))`. -/
def progressVal (sim : Sim) (now : ℚ) : ℤ :=
  min 100 (pyInt ((now - sim.start_time) / (sim.total_time : ℚ) * 100))

/-- The service state after `get_simulation_progress` on a live session:
the ledger row's `progress_percent` persisted (when the row exists) and
possibly one event appended to the session. -/
def progressState (svc : SimulationService) (key : String) (sim : Sim)
    (now : ℚ) (g : Bool) (ci : ℕ) : SimulationService :=
  let svc1 :=
    match alistLookup svc.interactions sim.interaction_id with
    | some interaction =>
      let interaction2 := { interaction with progress_percent := progressVal sim now }
      { svc with interactions :=
          alistSet svc.interactions sim.interaction_id interaction2 }
    | none => svc
  if 20 < progressVal sim now ∧ sim.events.length < 3 ∧ g = true then
    let sim2 := { sim with events := sim.events ++ [pyChoice (SIMULATION_EVENTS sim.content_type) ci] }
    { svc1 with active_simulations := alistSet svc1.active_simulations key sim2 }
  else svc1

/-- The report `get_simulation_progress` returns for a live session. -/
def progressPayload (sim : Sim) (now : ℚ) (g : Bool) (ci : ℕ) : ProgressResult :=
  { progress := progressVal sim now,
    completed := decide (100 ≤ progressVal sim now),
    event :=
      if 20 < progressVal sim now ∧ sim.events.length < 3 ∧ g = true then
        some (pyChoice (SIMULATION_EVENTS sim.content_type) ci)
      else none,
    content_title := sim.content_title,
    elapsed_time := pyInt (now - sim.start_time) }

/-- Equation for `get_simulation_progress` on a live session. -/
theorem get_simulation_progress_of_live (svc : SimulationService) (key : String)
    (sim : Sim) (now : ℚ) (g : Bool) (ci : ℕ)
    (hlive : alistLookup svc.active_simulations key = some sim) :
    get_simulation_progress svc key now g ci =
      (progressState svc key sim now g ci, Except.ok (progressPayload sim now g ci)) := by
  simp only [get_simulation_progress, hlive, progressState, progressPayload, progressVal]
  cases alistLookup svc.interactions sim.interaction_id with
  | none =>
    simp only []
    split_ifs <;> rfl
  | some interaction =>
    simp only []
    split_ifs <;> rfl

/-- The part of a session the `progress` operation never changes:
everything except the event list. -/
def simCore (s : Sim) : Sim := { s with events := [] }

theorem progressState_keys (svc : SimulationService) (key : String) (sim : Sim)
    (now : ℚ) (g : Bool) (ci : ℕ)
    (hlive : alistLookup svc.active_simulations key = some sim) :
    (progressState svc key sim now g ci).active_simulations.map Prod.fst =
      svc.active_simulations.map Prod.fst := by
  unfold progressState
  have hmem := mem_keys_of_alistLookup _ _ _ hlive
  cases alistLookup svc.interactions sim.interaction_id with
  | none =>
    simp only []
    split_ifs
    · exact alistSet_map_fst_of_mem _ _ _ hmem
    · rfl
  | some interaction =>
    simp only []
    split_ifs
    · exact alistSet_map_fst_of_mem _ _ _ hmem
    · rfl

theorem progressState_interactions (svc : SimulationService) (key : String)
    (sim : Sim) (now : ℚ) (g : Bool) (ci : ℕ) (i : UserInteraction)
    (hrec : alistLookup svc.interactions sim.interaction_id = some i) :
    (progressState svc key sim now g ci).interactions =
      alistSet svc.interactions sim.interaction_id
        ({ i with progress_percent := progressVal sim now }) := by
  unfold progressState
  rw [hrec]
  split_ifs <;> rfl

theorem progressState_core (svc : SimulationService) (key : String) (sim : Sim)
    (now : ℚ) (g : Bool) (ci : ℕ)
    (hlive : alistLookup svc.active_simulations key = some sim) (k2 : String) :
    Option.map simCore
        (alistLookup (progressState svc key sim now g ci).active_simulations k2) =
      Option.map simCore (alistLookup svc.active_simulations k2) := by
  unfold progressState
  cases alistLookup svc.interactions sim.interaction_id with
  | none =>
    simp only []
    split_ifs
    · by_cases hk : k2 = key
      · subst hk
        rw [alistLookup_set_self, hlive]
        rfl
      · rw [alistLookup_set_ne _ _ _ _ hk]
    · rfl
  | some interaction =>
    simp only []
    split_ifs
    · by_cases hk : k2 = key
      · subst hk
        rw [alistLookup_set_self, hlive]
        rfl
      · rw [alistLookup_set_ne _ _ _ _ hk]
    · rfl

theorem activeSimsGo_spec (uid : ℤ) (now : ℚ) (gate : ℕ → Bool) (ci : ℕ → ℕ)
    (svc0 : SimulationService) (pairs : List (String × Sim)) :
    ∀ (idx : ℕ) (svcCur : SimulationService),
    (∀ p ∈ pairs, alistLookup svc0.active_simulations p.1 = some p.2) →
    svcCur.active_simulations.map Prod.fst = svc0.active_simulations.map Prod.fst →
    (∀ k2 : String, Option.map simCore (alistLookup svcCur.active_simulations k2) =
      Option.map simCore (alistLookup svc0.active_simulations k2)) →
    ∃ (st2 : SimulationService) (out : List ActiveSummary),
      activeSimsGo uid now gate ci pairs idx svcCur = (st2, Except.ok out) ∧
      st2.active_simulations.map Prod.fst = svc0.active_simulations.map Prod.fst ∧
      out.map (fun a => a.simulation_id) =
        (pairs.filter (fun p => p.2.user_id = uid)).map Prod.fst ∧
      (∀ a ∈ out, ∃ s : Sim,
        alistLookup svc0.active_simulations a.simulation_id = some s ∧
        s.user_id = uid ∧ a.progress = progressVal s now ∧
        a.content_title = s.content_title ∧ a.content_type = s.content_type ∧
        a.start_time = s.start_time) := by
  induction pairs with
  | nil =>
    intro idx svcCur hb hkeys hcore
    exact ⟨svcCur, [], rfl, hkeys, rfl, by simp⟩
  | cons p rest ih =>
    obtain ⟨k, sd⟩ := p
    intro idx svcCur hb hkeys hcore
    have hbk : alistLookup svc0.active_simulations k = some sd :=
      hb (k, sd) (List.mem_cons_self _ _)
    have hck := hcore k
    rw [hbk] at hck
    cases hcur : alistLookup svcCur.active_simulations k with
    | none =>
      rw [hcur] at hck
      simp at hck
    | some s2 =>
      rw [hcur] at hck
      have hck2 : simCore s2 = simCore sd := by simpa using hck
      have hprog := get_simulation_progress_of_live svcCur k s2 now (gate idx) (ci idx) hcur
      have hpv : progressVal s2 now = progressVal sd now := by
        have h1 : progressVal (simCore s2) now = progressVal (simCore sd) now := by
          rw [hck2]
        exact h1
      by_cases hu : sd.user_id = uid
      · obtain ⟨st2, out, hgo, hkeys2, hmap, hall⟩ :=
          ih (idx + 1) (progressState svcCur k s2 now (gate idx) (ci idx))
            (fun q hq => hb q (List.mem_cons_of_mem _ hq))
            ((progressState_keys svcCur k s2 now (gate idx) (ci idx) hcur).trans hkeys)
            (fun k2 => (progressState_core svcCur k s2 now (gate idx) (ci idx) hcur k2).trans
              (hcore k2))
        refine ⟨st2, ⟨k, sd.content_title, sd.content_type,
          (progressPayload s2 now (gate idx) (ci idx)).progress, sd.start_time⟩ :: out,
          ?_, hkeys2, ?_, ?_⟩
        · simp only [activeSimsGo, hu, eq_self_iff_true, if_true, hprog, hgo]
        · simp [List.filter_cons, hu, hmap]
        · intro a ha
          rcases List.mem_cons.mp ha with h | h
          · subst h
            refine ⟨sd, hbk, hu, ?_, rfl, rfl, rfl⟩
            show (progressPayload s2 now (gate idx) (ci idx)).progress = progressVal sd now
            rw [← hpv]
            rfl
          · exact hall a h
      · obtain ⟨st2, out, hgo, hkeys2, hmap, hall⟩ :=
          ih idx svcCur (fun q hq => hb q (List.mem_cons_of_mem _ hq)) hkeys hcore
        refine ⟨st2, out, ?_, hkeys2, ?_, hall⟩
        · simp only [activeSimsGo]
          rw [if_neg hu]
          exact hgo
        · simp [List.filter_cons, hu, hmap]

/-- C9 counterexample: `list_active` is not read-only. On a state whose
session is 100% elapsed and whose ledger row still records progress 0, one
`GET /simulation/active` call rewrites the ledger row's `progress_percent`
to 100, because the endpoint invokes `get_simulation_progress`, which
persists the recomputed percentage. -/
theorem list_active_not_readonly :
    Option.map UserInteraction.progress_percent
      (alistLookup wSvc.interactions 0) = some 0 ∧
    Option.map UserInteraction.progress_percent
      (alistLookup (get_active_simulations wSvc 1 30 (fun _ => false)
        (fun _ => 0)).1.interactions 0) = some 100 := by
  constructor
  · rfl
  · have hprog := get_simulation_progress_of_live wSvc "k" wSim 30 false 0 (by decide)
    have hP : progressVal wSim 30 = 100 := by
      show min 100 (pyInt (((30 : ℚ) - wSim.start_time) / (wSim.total_time : ℚ) * 100)) = 100
      have h1 : ((30 : ℚ) - wSim.start_time) / (wSim.total_time : ℚ) * 100 = 100 := by
        show ((30 : ℚ) - 0) / ((30 : ℕ) : ℚ) * 100 = 100
        norm_num
      rw [h1]
      have h2 : pyInt 100 = 100 := by
        unfold pyInt
        norm_num
      rw [h2, min_self]
    show Option.map UserInteraction.progress_percent
      (alistLookup (activeSimsGo 1 30 (fun _ => false) (fun _ => 0)
        [("k", wSim)] 0 wSvc).1.interactions 0) = some 100
    simp only [activeSimsGo]
    rw [if_pos (show wSim.user_id = 1 from rfl), hprog]
    simp only [activeSimsGo]
    show Option.map UserInteraction.progress_percent
      (alistLookup (progressState wSvc "k" wSim 30 false 0).interactions 0) = some 100
    rw [progressState_interactions wSvc "k" wSim 30 false 0 wInteraction (by decide)]
    rw [show (0 : ℕ) = wSim.interaction_id from rfl, alistLookup_set_self]
    show some (progressVal wSim 30) = some 100
    rw [hP]

/-- C9 amended: `list_active` returns one summary per live session owned by
the caller — in map order, with exactly the owner's session keys — each
recomputed with the `progress` logic (`progressVal`), and it neither adds
nor removes sessions (the key sequence of the map is unchanged); but it is
not read-only: it runs `get_simulation_progress` on every owned session, so
it persists recomputed `progress_percent` values onto ledger rows and may
append session events. -/
theorem list_active_owner_snapshots (svc : SimulationService) (uid : ℤ)
    (now : ℚ) (gate : ℕ → Bool) (ci : ℕ → ℕ)
    (hnd : (svc.active_simulations.map Prod.fst).Nodup) :
    ∃ (st2 : SimulationService) (out : List ActiveSummary),
      get_active_simulations svc uid now gate ci = (st2, Except.ok out) ∧
      st2.active_simulations.map Prod.fst = svc.active_simulations.map Prod.fst ∧
      out.map (fun a => a.simulation_id) =
        (svc.active_simulations.filter (fun p => p.2.user_id = uid)).map Prod.fst ∧
      (∀ a ∈ out, ∃ s : Sim,
        alistLookup svc.active_simulations a.simulation_id = some s ∧
        s.user_id = uid ∧ a.progress = progressVal s now ∧
        a.content_title = s.content_title ∧ a.content_type = s.content_type ∧
        a.start_time = s.start_time) := by
  have hb : ∀ p ∈ svc.active_simulations,
      alistLookup svc.active_simulations p.1 = some p.2 := by
    intro p hp
    exact alistLookup_of_mem_nodup _ _ _ (Prod.mk.eta ▸ hp) hnd
  exact activeSimsGo_spec uid now gate ci svc svc.active_simulations 0 svc hb rfl
    (fun _ => rfl)

theorem list_active_owner_snapshots_witness :
    ∃ (st2 : SimulationService) (out : List ActiveSummary),
      get_active_simulations wSvc 1 30 (fun _ => false) (fun _ => 0) =
        (st2, Except.ok out) ∧
      st2.active_simulations.map Prod.fst = wSvc.active_simulations.map Prod.fst ∧
      out.map (fun a => a.simulation_id) =
        (wSvc.active_simulations.filter (fun p => p.2.user_id = 1)).map Prod.fst ∧
      (∀ a ∈ out, ∃ s : Sim,
        alistLookup wSvc.active_simulations a.simulation_id = some s ∧
        s.user_id = 1 ∧ a.progress = progressVal s 30 ∧
        a.content_title = s.content_title ∧ a.content_type = s.content_type ∧
        a.start_time = s.start_time) :=
  list_active_owner_snapshots wSvc 1 30 (fun _ => false) (fun _ => 0) (by decide)
